import Mathlib

/-!
Verification of the core logic of a task-management service (NestJS/TypeORM).

The development shallowly embeds the two core services of the repository:

* AuthService (src/auth/auth.service.ts): register, validateUser, login,
  refreshToken.
* TasksService (src/tasks/tasks.service.ts): create, findAll, findOne,
  update, remove.

The persistent store is modelled as an in-memory list of records (users,
tasks).  External primitives — the bcrypt hash/compare functions, the JWT
sign/verify functions and the JavaScript Date parser — are parameters of
the embedded operations.  JavaScript truthiness checks of the source
(if (x) { ... } on strings and numbers) are modelled exactly: an absent or
empty string is falsy, the number 0 is falsy.

NestJS exceptions are modelled by the HttpError type, one constructor per
exception class used by the two services.
-/

namespace TaskMgmt

/-- Errors raised by the services; one constructor per NestJS exception
class appearing in the source, carrying the exception message. -/
inductive HttpError where
  | BadRequestException (msg : String)
  | UnauthorizedException (msg : String)
  | NotFoundException (msg : String)
  | ForbiddenException (msg : String)
  deriving DecidableEq

/-- Error kind: the exception class with the message forgotten.  Two
errors of the same kind map to the same HTTP status at the boundary. -/
inductive ErrKind where
  | badRequest
  | unauthorized
  | notFound
  | forbidden
  deriving DecidableEq

def HttpError.kind : HttpError → ErrKind
  | .BadRequestException _ => .badRequest
  | .UnauthorizedException _ => .unauthorized
  | .NotFoundException _ => .notFound
  | .ForbiddenException _ => .forbidden

/-- Kind of the error of a failed computation, none on success. -/
def errKind {α : Type} : Except HttpError α → Option ErrKind
  | .error e => some e.kind
  | .ok _ => none

instance {ε α : Type} [DecidableEq ε] [DecidableEq α] : DecidableEq (Except ε α) :=
  fun x y =>
    match x, y with
    | .ok a, .ok b =>
      if h : a = b then .isTrue (by rw [h])
      else .isFalse (fun hc => h (Except.ok.inj hc))
    | .error a, .error b =>
      if h : a = b then .isTrue (by rw [h])
      else .isFalse (fun hc => h (Except.error.inj hc))
    | .ok _, .error _ => .isFalse (fun hc => Except.noConfusion hc)
    | .error _, .ok _ => .isFalse (fun hc => Except.noConfusion hc)

/-- JavaScript truthiness of an optional string field: undefined and the
empty string are falsy, every other string is truthy. -/
def truthy (o : Option String) : Bool := !(o.getD "").isEmpty

/-- User entity (src/users/entities/user.entity.ts): id, unique email,
bcrypt-hashed password, role.  Roles are the strings USER / ADMIN; the
source compares them as strings (user.role !== 'ADMIN'). -/
structure User where
  id : String
  email : String
  password : String
  role : String
  deriving DecidableEq

/-- Task entity (src/tasks/entities/task.entity.ts): id, title, optional
description, status string (enum TODO | IN_PROGRESS | DONE, default TODO),
optional due date (modelled as the date string), owning user relation.
The userId column of the entity is the id of the user relation. -/
structure Task where
  id : String
  title : String
  description : Option String
  status : String
  dueDate : Option String
  user : User
  deriving DecidableEq

/-- Object.values(TaskStatus) of the source. -/
def TaskStatusValues : List String := ["TODO", "IN_PROGRESS", "DONE"]

/-- Object.values(TaskStatus).includes(s). -/
def isTaskStatus (s : String) : Bool := TaskStatusValues.contains s

/-- CreateTaskDto (src/tasks/dto/task.dto.ts): title, optional
description, optional status, optional due date.  At runtime every field
is a plain string (TypeScript types are erased), so status and dueDate are
raw strings here; title is optional because the service itself re-checks
its presence (!createTaskDto.title). -/
structure CreateTaskDto where
  title : Option String
  description : Option String
  status : Option String
  dueDate : Option String
  deriving DecidableEq

/-- UpdateTaskDto: the partial-update input.  Both DTO variants of the
repository expose exactly the four optional fields below, and the global
ValidationPipe (whitelist: true) strips any other key before the service
is invoked. -/
structure UpdateTaskDto where
  title : Option String
  description : Option String
  status : Option String
  dueDate : Option String
  deriving DecidableEq

/-- TasksService.create.  validDate s models
!isNaN(new Date(s).getTime()); newId is the id the store assigns on save.
Mirrors the three validation checks and the spread {...createTaskDto, user}
(a status key absent from the DTO falls back to the entity default TODO;
a present key is stored as given). -/
def TasksService.create (validDate : String → Bool) (db : List Task)
    (dto : CreateTaskDto) (user : User) (newId : String) :
    Except HttpError (Task × List Task) :=
  if !(truthy dto.title) then
    .error (.BadRequestException "Title is required")
  else if truthy dto.status && !(isTaskStatus (dto.status.getD "")) then
    .error (.BadRequestException "Invalid task status")
  else if truthy dto.dueDate && !(validDate (dto.dueDate.getD "")) then
    .error (.BadRequestException "Invalid due date format")
  else
    let task : Task :=
      { id := newId
        title := dto.title.getD ""
        description := dto.description
        status := dto.status.getD "TODO"
        dueDate := dto.dueDate
        user := user }
    .ok (task, db ++ [task])

/-- Status and due-date conditions of the findAll query builder
(andWhere('task.status = :status') / andWhere('task.dueDate = :dueDate')),
each added only when the parameter is truthy (status: nonempty string;
dueDate: a present Date object). -/
def statusDueMatches (status : Option String) (dueDate : Option String)
    (t : Task) : Bool :=
  (if truthy status then t.status == status.getD "" else true)
    && (if dueDate.isSome then t.dueDate == dueDate else true)

/-- Full row condition of the findAll query: the ownership restriction
where('task.userId = :userId') is added only when user.role !== 'ADMIN'. -/
def rowMatches (user : User) (status : Option String)
    (dueDate : Option String) (t : Task) : Bool :=
  (if user.role != "ADMIN" then t.user.id == user.id else true)
    && statusDueMatches status dueDate t

/-- TasksService.findAll: filters, then skip/take pagination with the
source's truthiness defaults (skip = page ? (page-1)*(limit||10) : 0,
take = limit||10); getManyAndCount returns the page together with the
count of all matching rows ignoring skip/take. -/
def TasksService.findAll (db : List Task) (user : User)
    (status : Option String) (dueDate : Option String)
    (page : Option Nat) (limit : Option Nat) : List Task × Nat :=
  let matching := db.filter (rowMatches user status dueDate)
  let take := if limit.getD 0 != 0 then limit.getD 0 else 10
  let skip := if page.getD 0 != 0 then (page.getD 0 - 1) * take else 0
  ((matching.drop skip).take take, matching.length)

/-- Variant of the findAll query with no ownership restriction at all,
used to state that an ADMIN's listing is not restricted by owner. -/
def findAllUnrestricted (db : List Task) (status : Option String)
    (dueDate : Option String) (page : Option Nat) (limit : Option Nat) :
    List Task × Nat :=
  let matching := db.filter (statusDueMatches status dueDate)
  let take := if limit.getD 0 != 0 then limit.getD 0 else 10
  let skip := if page.getD 0 != 0 then (page.getD 0 - 1) * take else 0
  ((matching.drop skip).take take, matching.length)

/-- TasksService.findOne: load by id (NotFound when absent), then the
ownership-or-admin check (Forbidden when it fails). -/
def TasksService.findOne (db : List Task) (id : String) (user : User) :
    Except HttpError Task :=
  match db.find? (fun t => t.id == id) with
  | none => .error (.NotFoundException ("Task with ID " ++ id ++ " not found"))
  | some task =>
    if user.role != "ADMIN" && task.user.id != user.id then
      .error (.ForbiddenException "You do not have permission to access this task")
    else
      .ok task

/-- Object.assign(task, updateTaskDto): every key present in the patch
overwrites the task's field, every absent key leaves it untouched. -/
def objectAssign (t : Task) (p : UpdateTaskDto) : Task :=
  { t with
    title := p.title.getD t.title
    description := match p.description with | some d => some d | none => t.description
    status := p.status.getD t.status
    dueDate := match p.dueDate with | some d => some d | none => t.dueDate }

/-- TasksService.update: findOne (NotFound/Forbidden), then the status and
due-date validations, then Object.assign and save (the row with this id is
replaced in the store). -/
def TasksService.update (validDate : String → Bool) (db : List Task)
    (id : String) (dto : UpdateTaskDto) (user : User) :
    Except HttpError (Task × List Task) :=
  match TasksService.findOne db id user with
  | .error e => .error e
  | .ok task =>
    if truthy dto.status && !(isTaskStatus (dto.status.getD "")) then
      .error (.BadRequestException "Invalid task status")
    else if truthy dto.dueDate && !(validDate (dto.dueDate.getD "")) then
      .error (.BadRequestException "Invalid due date format")
    else
      let updated := objectAssign task dto
      .ok (updated, db.map (fun t => if t.id == id then updated else t))

/-- TasksService.remove: findOne (NotFound/Forbidden), then
repository.remove(task). -/
def TasksService.remove (db : List Task) (id : String) (user : User) :
    Except HttpError (List Task) :=
  match TasksService.findOne db id user with
  | .error e => .error e
  | .ok task => .ok (db.filter (fun t => t.id != task.id))

/-- Splits a character list at every occurrence of the separator
(structural counterpart of String.splitOn for one-character separators). -/
def splitChar (sep : Char) : List Char → List (List Char)
  | [] => [[]]
  | c :: rest =>
    match splitChar sep rest with
    | [] => if c == sep then [[], []] else [[c]]
    | h :: t => if c == sep then [] :: h :: t else (c :: h) :: t

/-- Model of the email regex of AuthService.isValidEmail,
/^[^\s@]+@[^\s@]+\.[^\s@]+$/ : exactly one at-sign; a nonempty local part
with no whitespace; a domain with no whitespace containing a dot that has
at least one character before it and one after it (the bracketed class
excludes only whitespace and at-signs, so dots may occur anywhere else in
the domain and in the local part). -/
def isValidEmail (email : String) : Bool :=
  match splitChar '@' email.data with
  | [lp, domain] =>
      !lp.isEmpty && lp.all (fun c => !c.isWhitespace)
        && domain.all (fun c => !c.isWhitespace)
        && ((domain.drop 1).dropLast.contains '.')
  | _ => false

/-- AuthService.register.  hash models bcrypt.hash(·, 10); newId is the id
the store assigns.  Note that the created user is returned as saved,
hashed password field included. -/
def AuthService.register (hash : String → String) (db : List User)
    (email : String) (password : String) (newId : String) :
    Except HttpError (User × List User) :=
  if !(isValidEmail email) then
    .error (.BadRequestException "Invalid email format")
  else if password.length < 6 then
    .error (.BadRequestException "Password must be at least 6 characters long")
  else if (db.find? (fun u => u.email == email)).isSome then
    .error (.BadRequestException "Email already exists")
  else
    let role := if email == "admin@example.com" then "ADMIN" else "USER"
    let user : User := { id := newId, email := email, password := hash password, role := role }
    .ok (user, db ++ [user])

/-- Shape of the value produced by the destructuring
const \x7b password: _, ...result \x7d = user in validateUser: the user
record with the password field removed. -/
structure PublicUser where
  id : String
  email : String
  role : String
  deriving DecidableEq

/-- AuthService.validateUser.  compare models bcrypt.compare.  Returns
none when the email is unknown or the password does not match, otherwise
the user record with the password field stripped. -/
def AuthService.validateUser (compare : String → String → Bool)
    (db : List User) (email : String) (password : String) : Option PublicUser :=
  match db.find? (fun u => u.email == email) with
  | none => none
  | some user =>
    if compare password user.password then
      some { id := user.id, email := user.email, role := user.role }
    else
      none

/-- JWT payload as decoded by verify: the three fields the services read.
Every field is optional because an arbitrary decoded object may lack any
of them. -/
structure Payload where
  sub : Option String
  email : Option String
  role : Option String
  deriving DecidableEq

/-- Value returned by login and refreshToken. -/
structure TokenPair where
  access_token : String
  refresh_token : String
  deriving DecidableEq

/-- AuthService.login: builds the payload \x7bsub, email, role\x7d from
the user and signs it with both JWT services. -/
def AuthService.login (sign : Payload → String) (signRefresh : Payload → String)
    (user : User) : TokenPair :=
  let payload : Payload := { sub := some user.id, email := some user.email, role := some user.role }
  { access_token := sign payload, refresh_token := signRefresh payload }

/-- Truthiness of the payload-completeness check
!payload.sub || !payload.email || !payload.role, negated: all three fields
present and nonempty. -/
def payloadTruthy (p : Payload) : Bool :=
  truthy p.sub && truthy p.email && truthy p.role

/-- AuthService.refreshToken.  verify models refreshJwtService.verify
(none when it throws for any reason).  The body mirrors the try block:
verify, payload-completeness check, user lookup by payload.sub, login;
the surrounding match mirrors the catch block, which replaces every
failure by UnauthorizedException('Invalid refresh token'). -/
def AuthService.refreshToken (verify : String → Option Payload)
    (sign : Payload → String) (signRefresh : Payload → String)
    (db : List User) (token : String) : Except HttpError TokenPair :=
  let body : Except HttpError TokenPair :=
    match verify token with
    | none => .error (.UnauthorizedException "verify threw")
    | some payload =>
      if !(payloadTruthy payload) then
        .error (.UnauthorizedException "Invalid token payload")
      else
        match db.find? (fun u => u.id == payload.sub.getD "") with
        | none => .error (.UnauthorizedException "User not found")
        | some user => .ok (AuthService.login sign signRefresh user)
  match body with
  | .error _ => .error (.UnauthorizedException "Invalid refresh token")
  | .ok r => .ok r

/-- Authorization predicate of §4.3 of the design: an admin may act on any
task, a non-admin exactly on tasks they own. -/
def authorizedB (t : Task) (u : User) : Bool :=
  u.role == "ADMIN" || t.user.id == u.id

/-- Concrete stand-ins for the external primitives, used by the closed
instances below: a constant bcrypt hash, a comparison recognizing it, and
a date parser accepting one date string. -/
def hashC : String → String := fun _ => "HASHED"

def compareC : String → String → Bool := fun _ h => h == "HASHED"

def validDateC : String → Bool := fun s => s == "2024-04-15"

def userU : User := { id := "u1", email := "a@b.com", password := "HASHED", role := "USER" }

def userV : User := { id := "u2", email := "c@d.com", password := "HASHED", role := "USER" }

def taskT : Task :=
  { id := "t1", title := "Test Task", description := none, status := "TODO",
    dueDate := none, user := userU }

def patchDone : UpdateTaskDto :=
  { title := none, description := none, status := some "DONE", dueDate := none }

def payloadC : Payload :=
  { sub := some "u1", email := some "a@b.com", role := some "USER" }

def verifyC : String → Option Payload :=
  fun t => if t == "good-token" then some payloadC else none

def signC : Payload → String := fun _ => "ACCESS"

def signRC : Payload → String := fun _ => "REFRESH"

def adminReg : User :=
  { id := "u9", email := "admin@example.com", password := "HASHED", role := "ADMIN" }

def pubU : PublicUser := { id := "u1", email := "a@b.com", role := "USER" }

def regU7 : User := { id := "u7", email := "a@b.com", password := "HASHED", role := "USER" }

/-- User record constructed by a successful register call. -/
def registeredUser (hash : String → String) (email password newId : String) : User :=
  { id := newId, email := email, password := hash password,
    role := if email == "admin@example.com" then "ADMIN" else "USER" }

def dtoEmptyStatus : CreateTaskDto :=
  { title := some "x", description := none, status := some "", dueDate := none }

def taskEmptyStatus : Task :=
  { id := "t9", title := "x", description := none, status := "", dueDate := none, user := userU }

def dtoNoTitle : CreateTaskDto :=
  { title := none, description := none, status := none, dueDate := none }

def taskDone : Task := { taskT with status := "DONE" }

def dtoNew : CreateTaskDto :=
  { title := some "New", description := none, status := none, dueDate := none }

def taskNew : Task :=
  { id := "t5", title := "New", description := none, status := "TODO", dueDate := none, user := userU }

def patchBogus : UpdateTaskDto :=
  { title := none, description := none, status := some "BOGUS", dueDate := none }

/-- Guard of the Forbidden branch of findOne, rewritten as the negation of
the ownership-or-admin predicate. -/
theorem findOne_guard_eq (t : Task) (u : User) :
    (u.role != "ADMIN" && t.user.id != u.id) = !(authorizedB t u) := by
  simp [authorizedB, Bool.not_or, bne]

/-- Successful findOne characterized: the task is the stored row with that
id and the acting user passes the ownership-or-admin check. -/
theorem findOne_ok (db : List Task) (id : String) (u : User) (t : Task)
    (h : TasksService.findOne db id u = .ok t) :
    db.find? (fun x => x.id == id) = some t ∧ authorizedB t u = true := by
  unfold TasksService.findOne at h
  cases hf : db.find? (fun x => x.id == id) with
  | none => rw [hf] at h; simp at h
  | some task =>
    rw [hf] at h
    by_cases hc : (u.role != "ADMIN" && task.user.id != u.id) = true
    · simp only [hc, if_true] at h
      simp at h
    · simp only [Bool.not_eq_true] at hc
      simp only [hc, Bool.false_eq_true, if_false] at h
      injection h with h1
      subst h1
      refine ⟨rfl, ?_⟩
      have hg := findOne_guard_eq task u
      rw [hg] at hc
      simpa using hc

/-- Failing findOne characterized: NotFound exactly when no row has the
id, Forbidden exactly when the row exists and the check fails. -/
theorem findOne_error (db : List Task) (id : String) (u : User) :
    (db.find? (fun x => x.id == id) = none →
      TasksService.findOne db id u
        = .error (.NotFoundException ("Task with ID " ++ id ++ " not found")))
    ∧ (∀ t, db.find? (fun x => x.id == id) = some t → authorizedB t u = false →
      TasksService.findOne db id u
        = .error (.ForbiddenException "You do not have permission to access this task")) := by
  constructor
  · intro hf
    unfold TasksService.findOne
    rw [hf]
  · intro t hf ha
    unfold TasksService.findOne
    rw [hf]
    have hg := findOne_guard_eq t u
    rw [ha] at hg
    simp only [Bool.not_false] at hg
    simp [hg]

/-- Successful findOne from its characterization. -/
theorem findOne_ok_of (db : List Task) (id : String) (u : User) (t : Task)
    (hf : db.find? (fun x => x.id == id) = some t) (ha : authorizedB t u = true) :
    TasksService.findOne db id u = .ok t := by
  unfold TasksService.findOne
  rw [hf]
  have hg := findOne_guard_eq t u
  rw [ha] at hg
  simp only [Bool.not_true] at hg
  simp [hg]

/-- Update never answers Forbidden once findOne has answered ok. -/
theorem update_not_forbidden (validDate : String → Bool) (db : List Task)
    (id : String) (p : UpdateTaskDto) (u : User) (t : Task)
    (h : TasksService.findOne db id u = .ok t) (m : String) :
    TasksService.update validDate db id p u ≠ .error (.ForbiddenException m) := by
  unfold TasksService.update
  rw [h]
  split
  · rename_i e heq
    simp at heq
  · split
    · simp
    · split
      · simp
      · simp

/-- Remove succeeds once findOne has answered ok. -/
theorem remove_ok_of (db : List Task) (id : String) (u : User) (t : Task)
    (h : TasksService.findOne db id u = .ok t) :
    TasksService.remove db id u = .ok (db.filter (fun x => x.id != t.id)) := by
  unfold TasksService.remove
  rw [h]

/-- Update and remove propagate an error of findOne unchanged. -/
theorem update_remove_propagate (validDate : String → Bool) (db : List Task)
    (id : String) (p : UpdateTaskDto) (u : User) (e : HttpError)
    (h : TasksService.findOne db id u = .error e) :
    TasksService.update validDate db id p u = .error e
      ∧ TasksService.remove db id u = .error e := by
  constructor
  · unfold TasksService.update
    rw [h]
  · unfold TasksService.remove
    rw [h]

/--
C1: for every task t and acting user u, get(t.id, u), update(t.id, patch, u)
and delete(t.id, u) succeed past the authorization check if and only if
u.role is ADMIN or t.owner.id = u.id, and otherwise fail with Forbidden;
list(u, ...) returns only tasks owned by u when u is not an ADMIN, while an
ADMIN's list is the unrestricted (owner-free) query.
-/
theorem C1_task_access_control
    (db : List Task) (id : String) (u : User) (validDate : String → Bool)
    (p : UpdateTaskDto) (status dueDate : Option String) (page limit : Option Nat)
    (t : Task) (ht : db.find? (fun x => x.id == id) = some t) :
    (authorizedB t u = true →
      TasksService.findOne db id u = .ok t
      ∧ (∀ m, TasksService.update validDate db id p u ≠ .error (.ForbiddenException m))
      ∧ TasksService.remove db id u = .ok (db.filter (fun x => x.id != t.id)))
    ∧ (authorizedB t u = false →
      TasksService.findOne db id u
          = .error (.ForbiddenException "You do not have permission to access this task")
      ∧ TasksService.update validDate db id p u
          = .error (.ForbiddenException "You do not have permission to access this task")
      ∧ TasksService.remove db id u
          = .error (.ForbiddenException "You do not have permission to access this task"))
    ∧ (u.role ≠ "ADMIN" →
        ∀ x ∈ (TasksService.findAll db u status dueDate page limit).1, x.user.id = u.id)
    ∧ (u.role = "ADMIN" →
        TasksService.findAll db u status dueDate page limit
          = findAllUnrestricted db status dueDate page limit) := by
  refine ⟨?_, ?_, ?_, ?_⟩
  · intro ha
    have hfind := findOne_ok_of db id u t ht ha
    exact ⟨hfind, fun m => update_not_forbidden validDate db id p u t hfind m,
      remove_ok_of db id u t hfind⟩
  · intro ha
    have hfind := (findOne_error db id u).2 t ht ha
    have hprop := update_remove_propagate validDate db id p u _ hfind
    exact ⟨hfind, hprop.1, hprop.2⟩
  · intro hrole x hx
    simp only [TasksService.findAll] at hx
    have hx2 : x ∈ db.filter (rowMatches u status dueDate) :=
      List.drop_subset _ _ (List.take_subset _ _ hx)
    have hrm := (List.mem_filter.mp hx2).2
    simp only [rowMatches, Bool.and_eq_true] at hrm
    have h1 := hrm.1
    rw [if_pos (by simpa using hrole)] at h1
    simpa using h1
  · intro hrole
    have hfilters : db.filter (rowMatches u status dueDate)
        = db.filter (statusDueMatches status dueDate) := by
      apply List.filter_congr
      intro x _
      simp [rowMatches, hrole]
    simp only [TasksService.findAll, findAllUnrestricted, hfilters]

/-- Witness for C1: one stored task owned by userU; userV (non-admin,
non-owner) is denied everywhere. -/
theorem C1_task_access_control_witness :
    ([taskT].find? (fun x => x.id == "t1") = some taskT)
    ∧ ((authorizedB taskT userV = true →
        TasksService.findOne [taskT] "t1" userV = .ok taskT
        ∧ (∀ m, TasksService.update validDateC [taskT] "t1" patchDone userV
              ≠ .error (.ForbiddenException m))
        ∧ TasksService.remove [taskT] "t1" userV
            = .ok ([taskT].filter (fun x => x.id != taskT.id)))
      ∧ (authorizedB taskT userV = false →
        TasksService.findOne [taskT] "t1" userV
            = .error (.ForbiddenException "You do not have permission to access this task")
        ∧ TasksService.update validDateC [taskT] "t1" patchDone userV
            = .error (.ForbiddenException "You do not have permission to access this task")
        ∧ TasksService.remove [taskT] "t1" userV
            = .error (.ForbiddenException "You do not have permission to access this task"))
      ∧ (userV.role ≠ "ADMIN" →
          ∀ x ∈ (TasksService.findAll [taskT] userV none none none none).1, x.user.id = userV.id)
      ∧ (userV.role = "ADMIN" →
          TasksService.findAll [taskT] userV none none none none
            = findAllUnrestricted [taskT] none none none none)) :=
  ⟨by decide,
   C1_task_access_control [taskT] "t1" userV validDateC patchDone none none none none taskT
     (by decide)⟩

/--
C6: for page ≥ 1 and limit ≥ 1 (with defaults page 1 and limit 10 when
omitted), list skips (page-1)*limit matching rows and returns at most
limit rows; the returned total counts all matching rows ignoring
pagination; and a page beyond the last matching row yields an empty task
list together with the correct total, not an error.
-/
theorem C6_pagination
    (db : List Task) (user : User) (status dueDate : Option String)
    (page limit : Option Nat)
    (hp : ∀ n ∈ page, 1 ≤ n) (hl : ∀ n ∈ limit, 1 ≤ n) :
    (TasksService.findAll db user status dueDate page limit).1
        = ((db.filter (rowMatches user status dueDate)).drop
            ((page.getD 1 - 1) * limit.getD 10)).take (limit.getD 10)
    ∧ (TasksService.findAll db user status dueDate page limit).1.length ≤ limit.getD 10
    ∧ (TasksService.findAll db user status dueDate page limit).2
        = (db.filter (rowMatches user status dueDate)).length
    ∧ ((db.filter (rowMatches user status dueDate)).length
          ≤ (page.getD 1 - 1) * limit.getD 10 →
        (TasksService.findAll db user status dueDate page limit).1 = []) := by
  have htake : (if limit.getD 0 != 0 then limit.getD 0 else 10) = limit.getD 10 := by
    cases limit with
    | none => simp
    | some n =>
      have h1 := hl n (by simp)
      have h2 : n ≠ 0 := by omega
      simp [h2]
  have hskip : (if page.getD 0 != 0 then (page.getD 0 - 1) * limit.getD 10 else 0)
      = (page.getD 1 - 1) * limit.getD 10 := by
    cases page with
    | none => simp
    | some n =>
      have h1 := hp n (by simp)
      have h2 : n ≠ 0 := by omega
      simp [h2]
  refine ⟨?_, ?_, ?_, ?_⟩
  · simp only [TasksService.findAll, htake, hskip]
  · simp only [TasksService.findAll, htake]
    exact List.length_take_le _ _
  · simp only [TasksService.findAll]
  · intro hbeyond
    simp only [TasksService.findAll, htake, hskip]
    rw [List.drop_eq_nil_of_le hbeyond]
    simp

/-- Witness for C6: one matching task, page 2 of size 10 is beyond the
last row and comes back empty with total 1. -/
theorem C6_pagination_witness :
    ((∀ n ∈ (some 2 : Option Nat), 1 ≤ n) ∧ (∀ n ∈ (some 10 : Option Nat), 1 ≤ n))
    ∧ ((TasksService.findAll [taskT] userU none none (some 2) (some 10)).1
          = (([taskT].filter (rowMatches userU none none)).drop
              (((some 2 : Option Nat).getD 1 - 1) * (some 10 : Option Nat).getD 10)).take
              ((some 10 : Option Nat).getD 10)
      ∧ (TasksService.findAll [taskT] userU none none (some 2) (some 10)).1.length
          ≤ (some 10 : Option Nat).getD 10
      ∧ (TasksService.findAll [taskT] userU none none (some 2) (some 10)).2
          = ([taskT].filter (rowMatches userU none none)).length
      ∧ (([taskT].filter (rowMatches userU none none)).length
            ≤ ((some 2 : Option Nat).getD 1 - 1) * (some 10 : Option Nat).getD 10 →
          (TasksService.findAll [taskT] userU none none (some 2) (some 10)).1 = [])) :=
  ⟨⟨by decide, by decide⟩,
   C6_pagination [taskT] userU none none (some 2) (some 10) (by decide) (by decide)⟩

/--
C3: refresh(refreshTokenString) fails with Unauthorized whenever token
verification fails for any reason, or the decoded payload lacks a truthy
subject id, email or role, or no user exists with the payload's subject
id; otherwise it calls login with the freshly loaded user and returns
that new access/refresh token pair.
-/
theorem C3_refresh_token
    (verify : String → Option Payload) (sign signRefresh : Payload → String)
    (db : List User) (token : String) :
    ((verify token = none
        ∨ (∃ p, verify token = some p ∧ payloadTruthy p = false)
        ∨ (∃ p, verify token = some p ∧ payloadTruthy p = true
            ∧ db.find? (fun x => x.id == p.sub.getD "") = none)) →
      AuthService.refreshToken verify sign signRefresh db token
        = .error (.UnauthorizedException "Invalid refresh token"))
    ∧ (∀ p u, verify token = some p → payloadTruthy p = true →
        db.find? (fun x => x.id == p.sub.getD "") = some u →
        AuthService.refreshToken verify sign signRefresh db token
          = .ok (AuthService.login sign signRefresh u)) := by
  constructor
  · rintro (h | ⟨p, hp, hcomp⟩ | ⟨p, hp, hcomp, hfind⟩)
    · simp [AuthService.refreshToken, h]
    · simp [AuthService.refreshToken, hp, hcomp]
    · simp [AuthService.refreshToken, hp, hcomp, hfind]
  · intro p u hp hcomp hfind
    simp [AuthService.refreshToken, hp, hcomp, hfind]

/-- Witness for C3: a verifiable token whose subject is the stored user
yields the pair produced by login on that user. -/
theorem C3_refresh_token_witness :
    verifyC "good-token" = some payloadC
    ∧ payloadTruthy payloadC = true
    ∧ [userU].find? (fun x => x.id == payloadC.sub.getD "") = some userU
    ∧ AuthService.refreshToken verifyC signC signRC [userU] "good-token"
        = .ok (AuthService.login signC signRC userU) :=
  ⟨by decide, by decide, by decide,
   (C3_refresh_token verifyC signC signRC [userU] "good-token").2 payloadC userU
     (by decide) (by decide) (by decide)⟩

/--
C5: role assignment at registration is a pure function of the email: a
successful register(email, password) creates a user whose role is ADMIN
exactly when the email equals admin@example.com, and USER otherwise.
-/
theorem C5_role_assignment (hash : String → String) (db : List User)
    (email password newId : String) (u : User) (db2 : List User)
    (h : AuthService.register hash db email password newId = .ok (u, db2)) :
    (u.role = "ADMIN" ↔ email = "admin@example.com")
    ∧ (email ≠ "admin@example.com" → u.role = "USER") := by
  unfold AuthService.register at h
  split at h
  · simp at h
  · split at h
    · simp at h
    · split at h
      · simp at h
      · rw [Except.ok.injEq, Prod.mk.injEq] at h
        obtain ⟨h1, h2⟩ := h
        subst h1
        constructor
        · by_cases he : email = "admin@example.com"
          · simp [he]
          · simp [he]
        · intro he
          simp [he]

/-- Witness for C5: registering admin@example.com yields role ADMIN. -/
theorem C5_role_assignment_witness :
    (AuthService.register hashC [] "admin@example.com" "password123" "u9"
        = .ok (adminReg, [adminReg]))
    ∧ ((adminReg.role = "ADMIN" ↔ "admin@example.com" = "admin@example.com")
      ∧ ("admin@example.com" ≠ "admin@example.com" → adminReg.role = "USER")) :=
  ⟨by decide,
   C5_role_assignment hashC [] "admin@example.com" "password123" "u9" adminReg [adminReg]
     (by decide)⟩

/--
C2 counterexample: the claim "for every successful register the returned
user value excludes the password hash" fails — register returns the saved
user, whose password field is exactly the stored hash (here the concrete
hash HASHED of the registered password).  The repository's own unit test
expects this full record from register.
-/
theorem C2_counterexample :
    (AuthService.register hashC [] "a@b.com" "password123" "u1").toOption.map
        (fun r => r.1.password) = some "HASHED"
    ∧ hashC "password123" = "HASHED" := by
  constructor
  · decide
  · decide

/--
C2 amended: validateUser returns the matched user record with the
password field stripped (only id, email and role survive), but register
returns the created user including its hashed password field.
-/
theorem C2_password_exposure (compare : String → String → Bool)
    (hash : String → String) (db : List User) (email password newId : String) :
    (∀ u r, db.find? (fun x => x.email == email) = some u →
        AuthService.validateUser compare db email password = some r →
        r = { id := u.id, email := u.email, role := u.role })
    ∧ (∀ u db2, AuthService.register hash db email password newId = .ok (u, db2) →
        u.password = hash password) := by
  constructor
  · intro u r hfind hval
    unfold AuthService.validateUser at hval
    rw [hfind] at hval
    split at hval
    · rename_i heq
      simp at heq
    · rename_i user heq
      injection heq with hu
      subst hu
      split at hval
      · injection hval with h1
        exact h1.symm
      · simp at hval
  · intro u db2 hreg
    unfold AuthService.register at hreg
    split at hreg
    · simp at hreg
    · split at hreg
      · simp at hreg
      · split at hreg
        · simp at hreg
        · rw [Except.ok.injEq, Prod.mk.injEq] at hreg
          obtain ⟨h1, h2⟩ := hreg
          subst h1
          rfl

/-- Witness for the amended C2: a stripped validateUser result and a
register result carrying the hash. -/
theorem C2_password_exposure_witness :
    ([userU].find? (fun x => x.email == "a@b.com") = some userU)
    ∧ (AuthService.validateUser compareC [userU] "a@b.com" "secret1" = some pubU)
    ∧ (AuthService.register hashC [] "a@b.com" "password123" "u7" = .ok (regU7, [regU7]))
    ∧ pubU = { id := userU.id, email := userU.email, role := userU.role }
    ∧ regU7.password = hashC "password123" :=
  ⟨by decide, by decide, by decide,
   (C2_password_exposure compareC hashC [userU] "a@b.com" "secret1" "u7").1 userU pubU
     (by decide) (by decide),
   (C2_password_exposure compareC hashC [] "a@b.com" "password123" "u7").2 regU7 [regU7]
     (by decide)⟩

/--
C4 counterexample: registering a duplicate email fails with
BadRequestException — the very same error kind produced for a malformed
email and for a short password — so the duplicate failure is not distinct
from the InvalidInput kind as the claim requires.
-/
theorem C4_counterexample :
    errKind (AuthService.register hashC [userU] "a@b.com" "password123" "u2")
        = some ErrKind.badRequest
    ∧ errKind (AuthService.register hashC [] "bad-email" "password123" "u2")
        = some ErrKind.badRequest
    ∧ errKind (AuthService.register hashC [] "a@b.com" "123" "u2")
        = some ErrKind.badRequest
    ∧ AuthService.register hashC [userU] "a@b.com" "password123" "u2"
        = .error (.BadRequestException "Email already exists") :=
  ⟨by decide, by decide, by decide, by decide⟩

/--
C4 amended: for a well-formed email and a password of length at least 6,
register fails with BadRequestException "Email already exists" whenever
the directory already holds that email, and registering the same email
twice means the first call succeeds and the second fails with that error;
the error kind, however, is the same BadRequest kind used for malformed
email and short password, distinguished only by its message.
-/
theorem C4_duplicate_email (hash : String → String) (db : List User)
    (email password newId newId2 : String)
    (hv : isValidEmail email = true) (hl : 6 ≤ password.length) :
    ((∃ u, db.find? (fun x => x.email == email) = some u) →
      AuthService.register hash db email password newId
        = .error (.BadRequestException "Email already exists"))
    ∧ (db.find? (fun x => x.email == email) = none →
      ∃ u db2, AuthService.register hash db email password newId = .ok (u, db2)
        ∧ AuthService.register hash db2 email password newId2
            = .error (.BadRequestException "Email already exists")) := by
  have hlen : ¬ (password.length < 6) := by omega
  constructor
  · rintro ⟨u, hfind⟩
    simp [AuthService.register, hv, hlen, hfind]
  · intro hnone
    refine ⟨registeredUser hash email password newId,
            db ++ [registeredUser hash email password newId], ?_, ?_⟩
    · simp [AuthService.register, registeredUser, hv, hlen, hnone]
    · simp [AuthService.register, registeredUser, hv, hlen, hnone]

/-- Witness for the amended C4: registering a@b.com twice on an empty
directory — the first call succeeds, the second fails. -/
theorem C4_duplicate_email_witness :
    (isValidEmail "a@b.com" = true ∧ 6 ≤ ("password123" : String).length)
    ∧ (([] : List User).find? (fun x => x.email == "a@b.com") = none)
    ∧ (∃ u db2, AuthService.register hashC [] "a@b.com" "password123" "u1" = .ok (u, db2)
        ∧ AuthService.register hashC db2 "a@b.com" "password123" "u2"
            = .error (.BadRequestException "Email already exists")) :=
  ⟨⟨by decide, by decide⟩, by decide,
   (C4_duplicate_email hashC [] "a@b.com" "password123" "u1" "u2"
     (by decide) (by decide)).2 (by decide)⟩

/--
C7 counterexample: the empty string is a supplied status that is not one
of TODO, IN_PROGRESS, DONE, yet create does not fail with InvalidInput —
an empty string is falsy in JavaScript, so the enum check
(createTaskDto.status && !includes(...)) is skipped and the task is
stored with status "".
-/
theorem C7_counterexample :
    isTaskStatus "" = false
    ∧ dtoEmptyStatus.status = some ""
    ∧ TasksService.create validDateC [] dtoEmptyStatus userU "t9"
        = .ok (taskEmptyStatus, [taskEmptyStatus]) :=
  ⟨by decide, by decide, by decide⟩

/--
C7 amended: create fails with InvalidInput when the title is absent or
empty; create and update fail with InvalidInput whenever the supplied
status is non-empty and not one of TODO, IN_PROGRESS, DONE, and (when the
status check passes) whenever the supplied due date is non-empty and does
not parse as a valid date.  An empty-string status or due date is falsy
in JavaScript and bypasses the corresponding check.
-/
theorem C7_input_validation (validDate : String → Bool) (db : List Task)
    (dto : CreateTaskDto) (pd : UpdateTaskDto) (user u : User) (newId id : String) :
    (truthy dto.title = false →
      TasksService.create validDate db dto user newId
        = .error (.BadRequestException "Title is required"))
    ∧ (truthy dto.title = true → truthy dto.status = true →
        isTaskStatus (dto.status.getD "") = false →
      TasksService.create validDate db dto user newId
        = .error (.BadRequestException "Invalid task status"))
    ∧ (truthy dto.title = true →
        (truthy dto.status && !(isTaskStatus (dto.status.getD ""))) = false →
        truthy dto.dueDate = true → validDate (dto.dueDate.getD "") = false →
      TasksService.create validDate db dto user newId
        = .error (.BadRequestException "Invalid due date format"))
    ∧ (∀ t, TasksService.findOne db id u = .ok t →
        truthy pd.status = true → isTaskStatus (pd.status.getD "") = false →
      TasksService.update validDate db id pd u
        = .error (.BadRequestException "Invalid task status"))
    ∧ (∀ t, TasksService.findOne db id u = .ok t →
        (truthy pd.status && !(isTaskStatus (pd.status.getD ""))) = false →
        truthy pd.dueDate = true → validDate (pd.dueDate.getD "") = false →
      TasksService.update validDate db id pd u
        = .error (.BadRequestException "Invalid due date format")) := by
  refine ⟨?_, ?_, ?_, ?_, ?_⟩
  · intro h1
    simp [TasksService.create, h1]
  · intro h1 h2 h3
    simp [TasksService.create, h1, h2, h3]
  · intro h1 h2 h3 h4
    simp [TasksService.create, h1, h2, h3, h4]
  · intro t hf h2 h3
    unfold TasksService.update
    rw [hf]
    simp [h2, h3]
  · intro t hf h2 h3 h4
    unfold TasksService.update
    rw [hf]
    simp [h2, h3, h4]

/-- Witness for the amended C7: a missing title is rejected. -/
theorem C7_input_validation_witness :
    truthy dtoNoTitle.title = false
    ∧ TasksService.create validDateC [] dtoNoTitle userU "t9"
        = .error (.BadRequestException "Title is required") :=
  ⟨by decide,
   (C7_input_validation validDateC [] dtoNoTitle patchDone userU userU "t9" "t1").1
     (by decide)⟩

/-- Replacing exactly the rows bearing an id keeps the id findable, and
find? afterwards returns the replacement. -/
theorem find?_map_replace (db : List Task) (id : String) (t t2 : Task)
    (h : db.find? (fun x => x.id == id) = some t) (h2 : (t2.id == id) = true) :
    (db.map (fun x => if x.id == id then t2 else x)).find? (fun x => x.id == id)
      = some t2 := by
  induction db with
  | nil => simp at h
  | cons a l ih =>
    by_cases ha : (a.id == id) = true
    · simp only [List.map_cons, if_pos ha]
      exact List.find?_cons_of_pos _ h2
    · rw [List.find?_cons_of_neg _ (by simpa using ha)] at h
      simp only [List.map_cons, if_neg ha]
      rw [List.find?_cons_of_neg _ (by simpa using ha)]
      exact ih h

/--
C8: a successful update(id, patch, actingUser) changes exactly the fields
present in the patch; every field not present keeps its previous value in
the returned task, and the returned task is what the store now holds
under that id.
-/
theorem C8_partial_update (validDate : String → Bool) (db : List Task)
    (id : String) (p : UpdateTaskDto) (u : User) (t t2 : Task) (db2 : List Task)
    (hf : TasksService.findOne db id u = .ok t)
    (hu : TasksService.update validDate db id p u = .ok (t2, db2)) :
    t2.id = t.id
    ∧ t2.user = t.user
    ∧ (p.title = none → t2.title = t.title)
    ∧ (∀ s, p.title = some s → t2.title = s)
    ∧ (p.description = none → t2.description = t.description)
    ∧ (∀ s, p.description = some s → t2.description = some s)
    ∧ (p.status = none → t2.status = t.status)
    ∧ (∀ s, p.status = some s → t2.status = s)
    ∧ (p.dueDate = none → t2.dueDate = t.dueDate)
    ∧ (∀ s, p.dueDate = some s → t2.dueDate = some s)
    ∧ db2.find? (fun x => x.id == id) = some t2 := by
  have ht2 : t2 = objectAssign t p
      ∧ db2 = db.map (fun x => if x.id == id then objectAssign t p else x) := by
    unfold TasksService.update at hu
    rw [hf] at hu
    split at hu
    · simp at hu
    · rename_i task heq
      injection heq with he
      subst he
      split at hu
      · simp at hu
      · split at hu
        · simp at hu
        · rw [Except.ok.injEq, Prod.mk.injEq] at hu
          exact ⟨hu.1.symm, hu.2.symm⟩
  obtain ⟨h1, h2⟩ := ht2
  subst h1
  subst h2
  have hfind := (findOne_ok db id u t hf).1
  have hid : (t.id == id) = true := by
    have hs := List.find?_some hfind
    simpa using hs
  have hid2 : ((objectAssign t p).id == id) = true := by
    simpa [objectAssign] using hid
  refine ⟨?_, ?_, ?_, ?_, ?_, ?_, ?_, ?_, ?_, ?_, ?_⟩
  · simp [objectAssign]
  · simp [objectAssign]
  · intro hp
    simp [objectAssign, hp]
  · intro s hp
    simp [objectAssign, hp]
  · intro hp
    simp [objectAssign, hp]
  · intro s hp
    simp [objectAssign, hp]
  · intro hp
    simp [objectAssign, hp]
  · intro s hp
    simp [objectAssign, hp]
  · intro hp
    simp [objectAssign, hp]
  · intro s hp
    simp [objectAssign, hp]
  · exact find?_map_replace db id t (objectAssign t p) hfind hid2

/-- Witness for C8: patching only the status leaves every other field of
the stored task unchanged. -/
theorem C8_partial_update_witness :
    (TasksService.findOne [taskT] "t1" userU = .ok taskT)
    ∧ (TasksService.update validDateC [taskT] "t1" patchDone userU
        = .ok (taskDone, [taskDone]))
    ∧ (taskDone.id = taskT.id
      ∧ taskDone.user = taskT.user
      ∧ (patchDone.title = none → taskDone.title = taskT.title)
      ∧ (∀ s, patchDone.title = some s → taskDone.title = s)
      ∧ (patchDone.description = none → taskDone.description = taskT.description)
      ∧ (∀ s, patchDone.description = some s → taskDone.description = some s)
      ∧ (patchDone.status = none → taskDone.status = taskT.status)
      ∧ (∀ s, patchDone.status = some s → taskDone.status = s)
      ∧ (patchDone.dueDate = none → taskDone.dueDate = taskT.dueDate)
      ∧ (∀ s, patchDone.dueDate = some s → taskDone.dueDate = some s)
      ∧ [taskDone].find? (fun x => x.id == "t1") = some taskDone) :=
  ⟨by decide, by decide,
   C8_partial_update validDateC [taskT] "t1" patchDone userU taskT taskDone [taskDone]
     (by decide) (by decide)⟩

/--
C9: the owner reference set at creation is never changed by the core
operations; create sets the owner to the acting user, and every accepted
update leaves the task's owner exactly as it was.
-/
theorem C9_owner_immutable (validDate : String → Bool) (db : List Task)
    (dto : CreateTaskDto) (actingUser : User) (newId : String)
    (id : String) (p : UpdateTaskDto) (u : User) :
    (∀ t db2, TasksService.create validDate db dto actingUser newId = .ok (t, db2) →
        t.user = actingUser)
    ∧ (∀ t t2 db2, TasksService.findOne db id u = .ok t →
        TasksService.update validDate db id p u = .ok (t2, db2) →
        t2.user = t.user) := by
  constructor
  · intro t db2 h
    unfold TasksService.create at h
    split at h
    · simp at h
    · split at h
      · simp at h
      · split at h
        · simp at h
        · rw [Except.ok.injEq, Prod.mk.injEq] at h
          obtain ⟨h1, h2⟩ := h
          subst h1
          rfl
  · intro t t2 db2 hf hu
    unfold TasksService.update at hu
    rw [hf] at hu
    split at hu
    · simp at hu
    · rename_i task heq
      injection heq with he
      subst he
      split at hu
      · simp at hu
      · split at hu
        · simp at hu
        · rw [Except.ok.injEq, Prod.mk.injEq] at hu
          obtain ⟨h1, h2⟩ := hu
          subst h1
          rfl

/-- Witness for C9: a freshly created task is owned by its creator, and a
status-only update keeps the owner. -/
theorem C9_owner_immutable_witness :
    (TasksService.create validDateC [] dtoNew userU "t5" = .ok (taskNew, [taskNew]))
    ∧ taskNew.user = userU
    ∧ (TasksService.findOne [taskT] "t1" userU = .ok taskT)
    ∧ (TasksService.update validDateC [taskT] "t1" patchDone userU = .ok (taskDone, [taskDone]))
    ∧ taskDone.user = taskT.user :=
  ⟨by decide,
   (C9_owner_immutable validDateC [] dtoNew userU "t5" "t1" patchDone userU).1
     taskNew [taskNew] (by decide),
   by decide, by decide,
   (C9_owner_immutable validDateC [taskT] dtoNew userU "t5" "t1" patchDone userU).2
     taskT taskDone [taskDone] (by decide) (by decide)⟩

/-- Errors of findOne are only NotFound or Forbidden, with the source's
messages. -/
theorem findOne_error_shape (db : List Task) (id : String) (u : User) (e : HttpError)
    (h : TasksService.findOne db id u = .error e) :
    e = .NotFoundException ("Task with ID " ++ id ++ " not found")
      ∨ e = .ForbiddenException "You do not have permission to access this task" := by
  unfold TasksService.findOne at h
  cases hf : db.find? (fun x => x.id == id) with
  | none =>
    rw [hf] at h
    injection h with he
    exact Or.inl he.symm
  | some task =>
    rw [hf] at h
    by_cases hc : (u.role != "ADMIN" && task.user.id != u.id) = true
    · simp only [hc, if_true] at h
      injection h with he
      exact Or.inr he.symm
    · simp only [Bool.not_eq_true] at hc
      simp only [hc, Bool.false_eq_true, if_false] at h
      simp at h

/--
C10: update checks existence and authorization before validating the
patch — a missing id yields NotFound and a foreign task yields Forbidden
for every patch, even an invalid one; and an InvalidInput error can only
arise for an existing task the acting user is entitled to act on.
-/
theorem C10_error_precedence (validDate : String → Bool) (db : List Task)
    (id : String) (p : UpdateTaskDto) (u : User) :
    (db.find? (fun x => x.id == id) = none →
      TasksService.update validDate db id p u
        = .error (.NotFoundException ("Task with ID " ++ id ++ " not found")))
    ∧ (∀ t, db.find? (fun x => x.id == id) = some t → authorizedB t u = false →
      TasksService.update validDate db id p u
        = .error (.ForbiddenException "You do not have permission to access this task"))
    ∧ (∀ m, TasksService.update validDate db id p u = .error (.BadRequestException m) →
      ∃ t, db.find? (fun x => x.id == id) = some t ∧ authorizedB t u = true) := by
  refine ⟨?_, ?_, ?_⟩
  · intro hf
    have h := (findOne_error db id u).1 hf
    exact (update_remove_propagate validDate db id p u _ h).1
  · intro t hf ha
    have h := (findOne_error db id u).2 t hf ha
    exact (update_remove_propagate validDate db id p u _ h).1
  · intro m h
    cases hfo : TasksService.findOne db id u with
    | error e =>
      have hprop := (update_remove_propagate validDate db id p u e hfo).1
      rw [hprop] at h
      injection h with he
      subst he
      rcases findOne_error_shape db id u _ hfo with hs | hs <;> simp at hs
    | ok t =>
      have hok := findOne_ok db id u t hfo
      exact ⟨t, hok.1, hok.2⟩

/-- Witness for C10: a nonexistent id with an invalid patch still yields
NotFound, not InvalidInput. -/
theorem C10_error_precedence_witness :
    ([taskT].find? (fun x => x.id == "t2") = none)
    ∧ TasksService.update validDateC [taskT] "t2" patchBogus userU
        = .error (.NotFoundException "Task with ID t2 not found") :=
  ⟨by decide,
   (C10_error_precedence validDateC [taskT] "t2" patchBogus userU).1 (by decide)⟩

end TaskMgmt
